import Mathlib

/-!
Shallow embedding of the bounded connection pool implemented in
`patterns/work-pools/db/db_pool.go` (the redis variant is line-for-line the
same logic on a different resource type).

The Go pool stores idle connections in a buffered channel `conns` of
capacity `maxConnections`.  We model the channel as a FIFO list of entries
together with its capacity and its closed flag, timestamps as integers, and
every side effect (closing a resource, blocking forever, panicking) as an
explicit outcome value.  The process-wide `var once sync.Once` guard used by
`Close` is modelled as an explicit boolean threaded through `closePool`.
-/

namespace DBPool

/-- One pooled connection: `DBConn{DB, HeartBeat, TimeOut}`.  The `id` field
stands for the pointer identity of the `*DBConn` / its underlying resource. -/
structure DBConn where
  id : Nat
  heartBeat : Int
  timeOut : Int
deriving DecidableEq, Repr

/-- The pool `ConnectionPool`.  `conns`/`connsCap`/`connsClosed` model the
buffered channel `conns chan *DBConn` (contents in FIFO order, capacity,
whether `close(p.conns)` has been called). -/
structure ConnectionPool where
  conns : List DBConn
  connsCap : Nat
  connsClosed : Bool
  maxConnections : Int
  minConnections : Int
  waitTimeout : Int
deriving DecidableEq, Repr

/-- `New(maxConnections, minConnections, waitTimeout)`: builds the pool with
an empty store of capacity `maxConnections` and the three config fields set.
`make(chan *DBConn, n)` panics in Go when `n` is negative, modelled as
`none`. -/
def New (maxConnections minConnections waitTimeout : Int) : Option ConnectionPool :=
  if maxConnections < 0 then none
  else some { conns := [], connsCap := maxConnections.toNat, connsClosed := false,
              maxConnections := maxConnections, minConnections := minConnections,
              waitTimeout := waitTimeout }

/-- `isConnectionExpired`: `conn.HeartBeat.Add(conn.TimeOut).Before(time.Now())`,
i.e. expired iff `heartBeat + timeOut` is strictly before `now`. -/
def isConnectionExpired (now : Int) (conn : DBConn) : Bool :=
  decide (conn.heartBeat + conn.timeOut < now)

/-- Outcome of `Acquire`: a connection, the two error returns, or the nil
dereference that happens when the receive on a closed empty channel yields
`nil` and `isConnectionExpired` reads `nil.HeartBeat`. -/
inductive AcquireResult where
  | ok (conn : DBConn)
  | errExpired
  | errTimeout
  | panicNilDeref
deriving DecidableEq, Repr

/-- `Acquire()`: receive from `conns` (a buffered value wins over the
`time.After(waitTimeout)` branch; a closed empty channel yields `nil`
immediately, after which `isConnectionExpired` dereferences `nil`).  An
expired head is closed and reported as the `connection expired` error.
Returns (result, updated pool, ids of resources closed by this call). -/
def Acquire (now : Int) (p : ConnectionPool) : AcquireResult × ConnectionPool × List Nat :=
  match p.conns with
  | conn :: rest =>
      if isConnectionExpired now conn then
        (AcquireResult.errExpired, { p with conns := rest }, [conn.id])
      else
        (AcquireResult.ok conn, { p with conns := rest }, [])
  | [] =>
      if p.connsClosed then (AcquireResult.panicNilDeref, p, [])
      else (AcquireResult.errTimeout, p, [])

/-- Outcome of `Release`: the send succeeds, blocks on a full buffer, or
panics because the channel is closed. -/
inductive ReleaseResult where
  | ok
  | blockedFull
  | panicSendClosed
deriving DecidableEq, Repr

/-- `Release(conn)`: set `conn.HeartBeat = time.Now()` then `p.conns <- conn`.
A send on a closed channel panics; a send on a full open buffer blocks. -/
def Release (now : Int) (conn : DBConn) (p : ConnectionPool) : ReleaseResult × ConnectionPool :=
  let conn2 := { conn with heartBeat := now }
  if p.connsClosed then (ReleaseResult.panicSendClosed, p)
  else if p.conns.length < p.connsCap then
    (ReleaseResult.ok, { p with conns := p.conns ++ [conn2] })
  else (ReleaseResult.blockedFull, p)

/-- Outcome of `Close`: returns normally, or blocks forever in
`for conn := range p.conns` because the channel was never closed (the global
`once` guard had already fired for a different pool). -/
inductive CloseResult where
  | ok
  | blockedForever
deriving DecidableEq, Repr

/-- `Close()`: `once.Do(func(){ close(p.conns) })` guarded by the
process-wide `once`, then `for conn := range p.conns { conn.DB.Close() }`.
The range loop closes every buffered connection; it terminates only if the
channel is closed.  Returns (result, pool, ids closed by this call, new state
of the global once guard). -/
def closePool (onceDone : Bool) (p : ConnectionPool) :
    CloseResult × ConnectionPool × List Nat × Bool :=
  let q := if onceDone then p else { p with connsClosed := true }
  let closedNow := q.conns.map (fun c => c.id)
  let q2 := { q with conns := [] }
  if q.connsClosed then (CloseResult.ok, q2, closedNow, true)
  else (CloseResult.blockedForever, q2, closedNow, true)

/-- Repeated `Close()` calls on one pool, threading the global once guard:
returns the list of per-call results, the final pool, all ids closed across
the calls (in order), and the final once guard. -/
def closeSeq : Nat → Bool → ConnectionPool → List CloseResult × ConnectionPool × List Nat × Bool
  | 0, onceDone, p => ([], p, [], onceDone)
  | Nat.succ n, onceDone, p =>
      let r := closePool onceDone p
      let rest := closeSeq n r.2.2.2 r.2.1
      (r.1 :: rest.1, rest.2.1, r.2.2.1 ++ rest.2.2.1, rest.2.2.2)

/-- Outcome of `CloseExpiredConnections`: either the drain loop reached the
timeout branch and executed `p.conns = newConns` (the freshly allocated
*unbuffered* channel, hence the empty store with capacity 0), or it is
blocked forever in `newConns <- conn`: `newConns` has no buffer and no other
goroutine holds a reference to it before the (never reached) reassignment,
so the send of a kept connection can never complete. -/
inductive EvictOutcome where
  | completed (p : ConnectionPool) (closedIds : List Nat)
  | blockedOnSend (pending : DBConn) (closedIds : List Nat) (p : ConnectionPool)
deriving DecidableEq, Repr

/-- Drain loop of `CloseExpiredConnections` over the remaining channel
contents: an expired connection is closed and dropped, a live one is sent to
the unbuffered `newConns` and blocks forever; when the old channel is empty
the `time.After` branch fires and the store is replaced by `newConns`. -/
def evictLoop (now : Int) (base : ConnectionPool) :
    List DBConn → List Nat → EvictOutcome
  | [], closed => EvictOutcome.completed { base with conns := [], connsCap := 0 } closed
  | conn :: rest, closed =>
      if isConnectionExpired now conn then evictLoop now base rest (closed ++ [conn.id])
      else EvictOutcome.blockedOnSend conn closed { base with conns := rest }

/-- `CloseExpiredConnections()`. -/
def closeExpiredConnections (now : Int) (p : ConnectionPool) : EvictOutcome :=
  evictLoop now p p.conns []

/-- Outcome of `MaintainMinConnections`: finishes (with the number of
`OpenConnection` calls made), or blocks forever in `p.conns <- conn` when
the store has no free capacity. -/
inductive RefillOutcome where
  | completed (p : ConnectionPool) (calls : Nat)
  | blockedOnSend (pending : DBConn) (p : ConnectionPool) (calls : Nat)
deriving DecidableEq, Repr

/-- Loop body of `MaintainMinConnections`: `n` remaining iterations of
`for i := len(p.conns); i < p.minConnections; i++` (the counter advances on
a failed `OpenConnection` too, because `continue` runs the post statement),
`k` factory calls made so far. -/
def refillLoop (factory : Nat → Option DBConn) :
    Nat → Nat → ConnectionPool → RefillOutcome
  | 0, k, p => RefillOutcome.completed p k
  | Nat.succ n, k, p =>
      match factory k with
      | none => refillLoop factory n (k + 1) p
      | some conn =>
          if p.conns.length < p.connsCap then
            refillLoop factory n (k + 1) { p with conns := p.conns ++ [conn] }
          else RefillOutcome.blockedOnSend conn p (k + 1)

/-- `MaintainMinConnections()`: the loop makes exactly
`max(0, minConnections - len(conns))` attempts; `factory` models the
caller-supplied `OpenConnection` callback, indexed by call number. -/
def maintainMinConnections (factory : Nat → Option DBConn) (p : ConnectionPool) : RefillOutcome :=
  refillLoop factory (p.minConnections - (p.conns.length : Int)).toNat 0 p

/-- Outcome of one maintenance tick (`Cleaner`). -/
inductive TickOutcome where
  | completed (p : ConnectionPool) (closedIds : List Nat) (calls : Nat)
  | blockedInEvict (pending : DBConn) (closedIds : List Nat) (p : ConnectionPool)
  | blockedInRefill (pending : DBConn) (closedIds : List Nat) (p : ConnectionPool) (calls : Nat)
deriving DecidableEq, Repr

/-- `Cleaner()`: `CloseExpiredConnections()` then `MaintainMinConnections()`. -/
def cleaner (now : Int) (factory : Nat → Option DBConn) (p : ConnectionPool) : TickOutcome :=
  match closeExpiredConnections now p with
  | EvictOutcome.blockedOnSend c closed p2 => TickOutcome.blockedInEvict c closed p2
  | EvictOutcome.completed p2 closed =>
      match maintainMinConnections factory p2 with
      | RefillOutcome.completed p3 k => TickOutcome.completed p3 closed k
      | RefillOutcome.blockedOnSend c p3 k => TickOutcome.blockedInRefill c closed p3 k

/-!  Handout-tracking trace semantics for the no-double-handout claim.
The ghost field `held` records the ids of entries currently checked out
(returned by an `Acquire` and not yet passed back to `Release`). -/

/-- Pool state plus ghost bookkeeping: ids currently checked out by callers
and ids of resources closed so far. -/
structure HState where
  pool : ConnectionPool
  held : List Nat
  closedIds : List Nat
deriving DecidableEq, Repr

/-- A caller-visible event: an `Acquire` call or a `Release(conn)` call at
time `now`. -/
inductive PoolEvent where
  | acquireEv (now : Int)
  | releaseEv (now : Int) (conn : DBConn)
deriving DecidableEq, Repr

/-- Effect of one event on the pool, with the ghost `held` set updated: a
successful `Acquire` checks its entry out, a successful `Release` checks the
entry back in.  The code itself never guards `Release`, so the event is
applied whether or not the released entry was actually checked out. -/
def stepEvent (s : HState) : PoolEvent → HState
  | PoolEvent.acquireEv now =>
      match Acquire now s.pool with
      | (AcquireResult.ok conn, p2, _) => ⟨p2, s.held ++ [conn.id], s.closedIds⟩
      | (AcquireResult.errExpired, p2, ids) => ⟨p2, s.held, s.closedIds ++ ids⟩
      | (_, p2, _) => ⟨p2, s.held, s.closedIds⟩
  | PoolEvent.releaseEv now conn =>
      match Release now conn s.pool with
      | (ReleaseResult.ok, p2) => ⟨p2, s.held.erase conn.id, s.closedIds⟩
      | (_, p2) => ⟨p2, s.held, s.closedIds⟩

/-- Handout invariant: no id occurs twice among the idle store and the
checked-out set — every entry has at most one holder and is never both idle
and checked out. -/
def handoutInv (s : HState) : Prop :=
  (s.pool.conns.map (fun c => c.id) ++ s.held).Nodup

/-- Well-formed step: any `Acquire`, or a `Release` of an entry that is
currently checked out (the restriction forced by the counterexample to the
unrestricted claim). -/
inductive WFStep : HState → HState → Prop where
  | acq (s : HState) (now : Int) : WFStep s (stepEvent s (PoolEvent.acquireEv now))
  | rel (s : HState) (now : Int) (conn : DBConn) (hmem : conn.id ∈ s.held) :
      WFStep s (stepEvent s (PoolEvent.releaseEv now conn))

/-- Reachability under well-formed steps. -/
def WFReachable : HState → HState → Prop := Relation.ReflTransGen WFStep

/-!  Concrete inputs used by the individual claims below. -/

/-- A pool of capacity 3 holding two expired entries (heartBeat 0, ttl 5,
observed at time 100). -/
def poolAllExpired : ConnectionPool :=
  { conns := [⟨1, 0, 5⟩, ⟨2, 0, 5⟩], connsCap := 3, connsClosed := false,
    maxConnections := 3, minConnections := 1, waitTimeout := 5 }

/-- A pool of capacity 3 holding one expired entry (id 1) followed by one
live entry (id 2, heartBeat 100, ttl 50, observed at time 100). -/
def poolMixed : ConnectionPool :=
  { conns := [⟨1, 0, 5⟩, ⟨2, 100, 50⟩], connsCap := 3, connsClosed := false,
    maxConnections := 3, minConnections := 1, waitTimeout := 5 }

/-- A pool with `minSize = 2`, `maxSize = 3`, whose single idle entry is
expired at time 100: the floor-maintenance scenario of the spec. -/
def poolFloor : ConnectionPool :=
  { conns := [⟨1, 0, 5⟩], connsCap := 3, connsClosed := false,
    maxConnections := 3, minConnections := 2, waitTimeout := 5 }

/-- A factory whose every call succeeds, producing fresh live connections. -/
def factoryAlwaysOk : Nat → Option DBConn := fun k => some ⟨10 + k, 100, 5⟩

/-- A pool with a single idle entry, used for the Close / Acquire-after-Close
claims. -/
def poolOneConn : ConnectionPool :=
  { conns := [⟨3, 0, 5⟩], connsCap := 2, connsClosed := false,
    maxConnections := 2, minConnections := 1, waitTimeout := 5 }

/-- Pool B of the two-pool scenario: one idle entry with id 7. -/
def poolB : ConnectionPool :=
  { conns := [⟨7, 0, 5⟩], connsCap := 2, connsClosed := false,
    maxConnections := 2, minConnections := 1, waitTimeout := 5 }

/-- C1: the claim says the store capacity stays fixed at `maxSize` and the
store is never replaced.  On the code, a maintenance tick whose eviction
drain reaches the timeout branch executes `p.conns = newConns` where
`newConns := make(chan *DBConn)` is a freshly allocated unbuffered channel:
for the capacity-3 pool `poolAllExpired` the eviction step replaces the
store with a structure of capacity 0. -/
theorem evictionReplacesStoreCapacity :
    poolAllExpired.connsCap = 3 ∧
    closeExpiredConnections 100 poolAllExpired =
      EvictOutcome.completed
        { conns := [], connsCap := 0, connsClosed := false,
          maxConnections := 3, minConnections := 1, waitTimeout := 5 } [1, 2] := by
  decide

/-- C4: the claim says the eviction step keeps every non-expired idle entry
in the store.  On `poolMixed` (expired id 1 followed by live id 2) the code
closes id 1, then blocks forever sending the live entry into the unbuffered
`newConns` channel: the live entry ends up in no store (the old channel is
left empty and `p.conns` is never reassigned), and the function never
returns — the repository's own `TestCloseExpiredConnections` hangs the same
way on its non-expired connection. -/
theorem evictionBlocksOnLiveEntry :
    closeExpiredConnections 100 poolMixed =
      EvictOutcome.blockedOnSend ⟨2, 100, 50⟩ [1]
        { conns := [], connsCap := 3, connsClosed := false,
          maxConnections := 3, minConnections := 1, waitTimeout := 5 } := by
  decide

/-- C5: the claim says that after one maintenance tick the idle count is at
least `min(minSize, initial idle count + successful factory calls)`.  On
`poolFloor` (minSize 2, all idle entries expired) with an always-succeeding
factory, the eviction step first replaces the store by the capacity-0
`newConns`; the refill step then makes one successful factory call and
blocks forever on `p.conns <- conn` (no free capacity, no concurrent
receiver), leaving the idle count at 0 instead of at least
`min(2, 0 + 1) = 1`. -/
theorem tickRefillBlockedAfterSwap :
    cleaner 100 factoryAlwaysOk poolFloor =
      TickOutcome.blockedInRefill ⟨10, 100, 5⟩ [1]
        { conns := [], connsCap := 0, connsClosed := false,
          maxConnections := 3, minConnections := 2, waitTimeout := 5 } 1 := by
  decide

/-- C7: the claim says Acquire after Close returns a PoolClosed error
without panicking.  On the code, after `Close` the channel is closed and
drained, so Acquire's receive yields `nil` immediately and
`p.isConnectionExpired(conn)` dereferences `nil.HeartBeat`: a nil-pointer
panic, not an error return. -/
theorem acquireAfterClosePanics :
    (closePool false poolOneConn).1 = CloseResult.ok ∧
    (Acquire 10 (closePool false poolOneConn).2.1).1 = AcquireResult.panicNilDeref := by
  decide

/-- C9: the claim says the close-once guard is per pool instance, so closing
pool A first must not change how pool B closes.  On the code the guard is
the process-wide `var once sync.Once`: with the guard already fired (by pool
A), `close(p.conns)` is skipped for B, so B's drain loop closes B's buffered
resource (id 7) but then blocks forever ranging over a never-closed channel,
and B's store is never marked closed — unlike the fresh-guard run, which
returns normally with the store closed. -/
theorem secondPoolCloseBlocks :
    closePool true poolB =
      (CloseResult.blockedForever,
        { conns := [], connsCap := 2, connsClosed := false,
          maxConnections := 2, minConnections := 1, waitTimeout := 5 }, [7], true) ∧
    closePool false poolB =
      (CloseResult.ok,
        { conns := [], connsCap := 2, connsClosed := true,
          maxConnections := 2, minConnections := 1, waitTimeout := 5 }, [7], true) := by
  decide

/-- C8 counterexample: the claim says an entry counts as expired at the
exact instant `now = lastActive + ttl`.  The code uses `Before`, a strict
comparison: for `heartBeat = 0`, `ttl = 10`, `now = 10` the entry is not
expired. -/
theorem expiryBoundaryNotExpired :
    isConnectionExpired 10 ⟨0, 0, 10⟩ = false := by
  decide

/-- C8 (amended): an entry is expired iff `lastActive + ttl < now`
(strictly), and in particular at the exact instant `now = lastActive + ttl`
it is not expired. -/
theorem isConnectionExpiredCharacterization (now : Int) (conn : DBConn) :
    (isConnectionExpired now conn = true ↔ conn.heartBeat + conn.timeOut < now) ∧
    isConnectionExpired (conn.heartBeat + conn.timeOut) conn = false := by
  constructor
  · simp [isConnectionExpired]
  · simp [isConnectionExpired]

/-- C10: `New` performs no validation: for any `maxConnections ≥ 0` and
arbitrary `minConnections` and `waitTimeout` (including
`minConnections > maxConnections` and negative timeouts) it returns a pool
with an empty store of capacity exactly `maxConnections` and the three
config fields equal to the arguments, and never fails. -/
theorem newNoValidation (maxC minC wT : Int) (h : 0 ≤ maxC) :
    New maxC minC wT =
      some { conns := [], connsCap := maxC.toNat, connsClosed := false,
             maxConnections := maxC, minConnections := minC, waitTimeout := wT } ∧
    (maxC.toNat : Int) = maxC := by
  refine ⟨?_, Int.toNat_of_nonneg h⟩
  simp [New, not_lt.mpr h]

/-- C10 witness: instantiate at `maxConnections = 5`,
`minConnections = 9 > maxConnections`, `waitTimeout = -3`. -/
theorem newNoValidation_witness :
    (0 : Int) ≤ 5 ∧
    (New 5 9 (-3) =
      some { conns := [], connsCap := 5, connsClosed := false,
             maxConnections := 5, minConnections := 9, waitTimeout := -3 } ∧
    ((5 : Int).toNat : Int) = 5) :=
  ⟨by decide, newNoValidation 5 9 (-3) (by decide)⟩

/-- C3: for every entry Acquire pulls from the store, if it is expired its
resource is closed and the `connection expired` error is returned with no
entry handed out and the entry not put back (the remaining store is exactly
`rest`); if it is not expired the entry itself is returned with no error and
nothing closed. -/
theorem acquireExpiryHandling (now : Int) (p : ConnectionPool) (conn : DBConn)
    (rest : List DBConn) (h : p.conns = conn :: rest) :
    (isConnectionExpired now conn = true →
      Acquire now p = (AcquireResult.errExpired, { p with conns := rest }, [conn.id])) ∧
    (isConnectionExpired now conn = false →
      Acquire now p = (AcquireResult.ok conn, { p with conns := rest }, [])) := by
  obtain ⟨conns, cap, closed, mx, mn, wt⟩ := p
  simp only [ConnectionPool.mk.injEq] at h ⊢
  subst h
  constructor
  · intro he
    simp [Acquire, he]
  · intro he
    simp [Acquire, he]

/-- C3 witness: the expired branch at a concrete pool whose head entry
(heartBeat 0, ttl 5) is expired at time 100. -/
theorem acquireExpiryHandling_witness :
    poolOneConn.conns = ⟨3, 0, 5⟩ :: [] ∧
    ((isConnectionExpired 100 ⟨3, 0, 5⟩ = true →
      Acquire 100 poolOneConn =
        (AcquireResult.errExpired, { poolOneConn with conns := [] }, [3])) ∧
    (isConnectionExpired 100 ⟨3, 0, 5⟩ = false →
      Acquire 100 poolOneConn =
        (AcquireResult.ok ⟨3, 0, 5⟩, { poolOneConn with conns := [] }, []))) :=
  ⟨rfl, acquireExpiryHandling 100 poolOneConn ⟨3, 0, 5⟩ [] rfl⟩

/-- Helper for C6: once the global guard has fired and the pool's channel is
closed and drained, every further `Close` is a no-op returning normally. -/
theorem closeSeq_after_first (n : Nat) (p : ConnectionPool)
    (hc : p.connsClosed = true) (he : p.conns = []) :
    closeSeq n true p = (List.replicate n CloseResult.ok, p, [], true) := by
  obtain ⟨conns, cap, closed, mx, mn, wt⟩ := p
  simp only at hc he
  subst hc he
  induction n with
  | zero => simp [closeSeq]
  | succ n ih => simp [closeSeq, closePool, List.replicate_succ, ih]

/-- C6: Close is idempotent on a single pool instance (fresh global guard):
the first Close returns normally and closes exactly the resources present in
the store at that moment (one close per occurrence, so each resource exactly
once), and every one of the `n` subsequent Close calls returns normally and
closes nothing further. -/
theorem closeIdempotentSinglePool (p : ConnectionPool) (n : Nat) :
    closeSeq (n + 1) false p =
      (List.replicate (n + 1) CloseResult.ok,
       { p with conns := [], connsClosed := true },
       p.conns.map (fun c => c.id),
       true) := by
  have h1 : closePool false p =
      (CloseResult.ok, { p with conns := [], connsClosed := true },
       p.conns.map (fun c => c.id), true) := by
    simp [closePool]
  have h2 := closeSeq_after_first n { p with conns := ([] : List DBConn), connsClosed := true }
    rfl rfl
  simp [closeSeq, h1, h2, List.replicate_succ]

/-- The entry double-released in the C2 counterexample. -/
def cexConn : DBConn := ⟨0, 99, 50⟩

/-- Initial state of the C2 counterexample: an empty pool of capacity 2,
nothing checked out. -/
def cexState0 : HState :=
  ⟨{ conns := [], connsCap := 2, connsClosed := false,
     maxConnections := 2, minConnections := 2, waitTimeout := 5 }, [], []⟩

/-- State after two Release calls (at time 0) of `cexConn`, an entry that
was never checked out. -/
def cexState2 : HState :=
  stepEvent (stepEvent cexState0 (PoolEvent.releaseEv 0 cexConn)) (PoolEvent.releaseEv 0 cexConn)

/-- State after the first subsequent Acquire (at time 10). -/
def cexState3 : HState := stepEvent cexState2 (PoolEvent.acquireEv 10)

/-- State after the second subsequent Acquire (at time 10). -/
def cexState4 : HState := stepEvent cexState3 (PoolEvent.acquireEv 10)

/-- C2 counterexample: the claim quantifies over all interleavings,
including a Release of an entry that was never checked out and a double
Release.  The code's `Release` has no guard, so after releasing `cexConn`
twice the store holds the same entry twice; the next two Acquire calls both
return that same entry (id 0) with no Release in between, and the entry is
simultaneously held by two callers (`held = [0, 0]`). -/
theorem doubleReleaseDoubleHandout :
    (Acquire 10 cexState2.pool).1 = AcquireResult.ok ⟨0, 0, 50⟩ ∧
    (Acquire 10 cexState3.pool).1 = AcquireResult.ok ⟨0, 0, 50⟩ ∧
    cexState4.held = [0, 0] ∧ ¬ cexState4.held.Nodup := by
  decide

/-- Helper for C2: one well-formed step preserves the handout invariant. -/
theorem wfStep_preserves_handoutInv (s t : HState) (hst : WFStep s t)
    (hinv : handoutInv s) : handoutInv t := by
  cases hst with
  | acq now =>
      obtain ⟨⟨conns, cap, closed, mx, mn, wt⟩, held, closedIds⟩ := s
      simp only [handoutInv] at hinv
      cases conns with
      | nil =>
          cases closed with
          | false =>
              have hred : stepEvent ⟨⟨[], cap, false, mx, mn, wt⟩, held, closedIds⟩
                  (PoolEvent.acquireEv now) =
                  ⟨⟨[], cap, false, mx, mn, wt⟩, held, closedIds⟩ := by
                simp [stepEvent, Acquire]
              rw [hred]
              exact hinv
          | true =>
              have hred : stepEvent ⟨⟨[], cap, true, mx, mn, wt⟩, held, closedIds⟩
                  (PoolEvent.acquireEv now) =
                  ⟨⟨[], cap, true, mx, mn, wt⟩, held, closedIds⟩ := by
                simp [stepEvent, Acquire]
              rw [hred]
              exact hinv
      | cons c rest =>
          simp only [List.map_cons, List.cons_append, List.nodup_cons] at hinv
          by_cases hexp : isConnectionExpired now c = true
          · have hred : stepEvent ⟨⟨c :: rest, cap, closed, mx, mn, wt⟩, held, closedIds⟩
                (PoolEvent.acquireEv now) =
                ⟨⟨rest, cap, closed, mx, mn, wt⟩, held, closedIds ++ [c.id]⟩ := by
              simp [stepEvent, Acquire, hexp]
            rw [hred]
            exact hinv.2
          · have hred : stepEvent ⟨⟨c :: rest, cap, closed, mx, mn, wt⟩, held, closedIds⟩
                (PoolEvent.acquireEv now) =
                ⟨⟨rest, cap, closed, mx, mn, wt⟩, held ++ [c.id], closedIds⟩ := by
              simp [stepEvent, Acquire, hexp]
            rw [hred]
            show List.Nodup (List.map (fun c => c.id) rest ++ (held ++ [c.id]))
            have hperm :
                List.Perm ((List.map (fun c => c.id) rest ++ held) ++ [c.id])
                  (c.id :: (List.map (fun c => c.id) rest ++ held)) :=
              List.perm_append_singleton _ _
            have hnd : List.Nodup ((List.map (fun c => c.id) rest ++ held) ++ [c.id]) :=
              hperm.symm.nodup (List.nodup_cons.mpr hinv)
            simpa [List.append_assoc] using hnd
  | rel now conn hmem =>
      obtain ⟨⟨conns, cap, closed, mx, mn, wt⟩, held, closedIds⟩ := s
      simp only [handoutInv] at hinv
      simp only at hmem
      cases closed with
      | true =>
          have hred : stepEvent ⟨⟨conns, cap, true, mx, mn, wt⟩, held, closedIds⟩
              (PoolEvent.releaseEv now conn) =
              ⟨⟨conns, cap, true, mx, mn, wt⟩, held, closedIds⟩ := by
            simp [stepEvent, Release]
          rw [hred]
          exact hinv
      | false =>
          by_cases hlen : conns.length < cap
          · have hred : stepEvent ⟨⟨conns, cap, false, mx, mn, wt⟩, held, closedIds⟩
                (PoolEvent.releaseEv now conn) =
                ⟨⟨conns ++ [{ conn with heartBeat := now }], cap, false, mx, mn, wt⟩,
                  held.erase conn.id, closedIds⟩ := by
              simp [stepEvent, Release, hlen]
            rw [hred]
            show List.Nodup
              (List.map (fun c => c.id) (conns ++ [{ conn with heartBeat := now }]) ++
                held.erase conn.id)
            have hperm : List.Perm held (conn.id :: held.erase conn.id) :=
              List.perm_cons_erase hmem
            have h2 :
                List.Perm (List.map (fun c => c.id) conns ++ held)
                  (List.map (fun c => c.id) conns ++ (conn.id :: held.erase conn.id)) :=
              hperm.append_left _
            have h3 := h2.nodup hinv
            simpa [List.map_append] using h3
          · have hred : stepEvent ⟨⟨conns, cap, false, mx, mn, wt⟩, held, closedIds⟩
                (PoolEvent.releaseEv now conn) =
                ⟨⟨conns, cap, false, mx, mn, wt⟩, held, closedIds⟩ := by
              simp [stepEvent, Release, hlen]
            rw [hred]
            exact hinv

/-- C2 (amended): under every interleaving of Acquire and Release steps in
which each Release returns an entry that is currently checked out (the
restriction forced by the double-Release counterexample), every state
reachable from a state satisfying the handout invariant still satisfies it,
and in particular no entry is simultaneously held by two callers
(`held` has no duplicates), so no two Acquire calls can have returned the
same entry without an intervening Release of it. -/
theorem noDoubleHandoutOnWellFormedTraces (s0 s : HState) (h0 : handoutInv s0)
    (hr : WFReachable s0 s) : handoutInv s ∧ s.held.Nodup := by
  have hinv : handoutInv s := by
    unfold WFReachable at hr
    induction hr with
    | refl => exact h0
    | tail _ hbc ih => exact wfStep_preserves_handoutInv _ _ hbc ih
  exact ⟨hinv, List.Nodup.of_append_right hinv⟩

/-- Initial state used by the C2 witness: a pool holding two distinct idle
entries, nothing checked out. -/
def wfInitState : HState :=
  ⟨{ conns := [⟨1, 0, 5⟩, ⟨2, 0, 5⟩], connsCap := 2, connsClosed := false,
     maxConnections := 2, minConnections := 1, waitTimeout := 5 }, [], []⟩

/-- C2 witness: the amended theorem applied at the concrete state
`wfInitState`, whose handout invariant is discharged by evaluation. -/
theorem noDoubleHandoutOnWellFormedTraces_witness :
    handoutInv wfInitState ∧ wfInitState.held.Nodup :=
  noDoubleHandoutOnWellFormedTraces wfInitState wfInitState
    (by show List.Nodup _; decide) Relation.ReflTransGen.refl

end DBPool
